import Mathlib

/-!
A shallow embedding of the part-search engine (`mouser_search_engine.py` and the
`/search` route of `app.py`) and proofs about it.

External collaborators and library calls are modelled by an `Oracle` record of
deterministic functions:
* `fuzzPartial` stands for the fuzzy partial-ratio similarity metric,
* `fuzzFull` stands for the fuzzy whole-string ratio metric,
* `catalog` stands for the HTTP layer of `MouserAPIClient.search_parts`
  (`none` models any transport/HTTP/parse failure, `some parts` a parsed reply),
* `enhance` stands for the query-enhancement model call (`none` models a raised
  exception, `some text` a reply),
* `genRecs` stands for the recommendation-text model call (same convention),
* `setList` stands for the enumeration order of a Python `set` built from a
  list (the language leaves this order unspecified; `SetEnumOK` below states
  the guarantees every enumeration has).

Python string primitives (`lower`, `strip`, `split`, substring test, `title`)
and the stable `list.sort` are re-implemented by structural recursion so that
every definition evaluates inside the kernel.  Wall-clock timestamps are
modelled by a counter in the engine state.
-/

set_option maxHeartbeats 1000000
set_option linter.unusedVariables false

/-- Is the first list an initial segment of the second? -/
def leadsList : List Char → List Char → Bool
  | [], _ => true
  | _ :: _, [] => false
  | a :: as, b :: bs => a == b && leadsList as bs

/-- Does the segment `n` occur contiguously in the list? -/
def hasSeg (n : List Char) : List Char → Bool
  | [] => leadsList n []
  | c :: t => leadsList n (c :: t) || hasSeg n t

/-- Python's `needle in hay` test on strings. -/
def strIn (needle hay : String) : Bool := hasSeg needle.data hay.data

/-- Python's `str.lower()` (for the ASCII strings used by the program). -/
def strLower (s : String) : String := ⟨s.data.map Char.toLower⟩

/-- Drop leading whitespace characters. -/
def trimWS (l : List Char) : List Char := l.dropWhile Char.isWhitespace

/-- Python's `str.strip()`: drop leading and trailing whitespace. -/
def strTrim (s : String) : String := ⟨(trimWS (trimWS s.data).reverse).reverse⟩

/-- Split a character list at every newline. -/
def splitOnNl : List Char → List (List Char)
  | [] => [[]]
  | c :: rest =>
    if c = '\n' then [] :: splitOnNl rest
    else
      match splitOnNl rest with
      | [] => [[c]]
      | h :: t => (c :: h) :: t

/-- Python's `str.split('\n')`. -/
def splitLines (s : String) : List String := (splitOnNl s.data).map (fun l => ⟨l⟩)

/-- Helper for `pyTitle`: the Boolean records whether the previous character
was alphabetic. -/
def pyTitleAux : Bool → List Char → List Char
  | _, [] => []
  | prev, c :: rest =>
    (if c.isAlpha then (if prev then c.toLower else c.toUpper) else c) ::
      pyTitleAux c.isAlpha rest

/-- Python's `str.title()` (for the ASCII strings used by the program). -/
def pyTitle (s : String) : String := ⟨pyTitleAux false s.data⟩

/-- The distinct elements of a list, first occurrence first: the key order of a
CPython `Counter`/`dict` built by repeated insertion. -/
def distinctKeys : List String → List String
  | [] => []
  | x :: xs => x :: (distinctKeys xs).filter (fun y => y ≠ x)

/-- Insert `x` into a list sorted by descending key, after every element of
key strictly greater than `x`'s and before the rest.  Used from the right
(earliest element inserted last), this realises a stable descending sort. -/
def insertByKeyDesc {α : Type} (key : α → Nat) (x : α) : List α → List α
  | [] => [x]
  | y :: ys => if key y ≤ key x then x :: y :: ys else y :: insertByKeyDesc key x ys

/-- A stable sort by descending key: the behaviour of Python's stable
`list.sort(key=..., reverse=True)` and of the stable sort inside CPython's
`Counter.most_common`. -/
def stableSortDesc {α : Type} (key : α → Nat) : List α → List α
  | [] => []
  | x :: xs => insertByKeyDesc key x (stableSortDesc key xs)

/-- CPython's `Counter(l).most_common(n)`, keys only: distinct elements sorted
by descending multiplicity, ties in first-occurrence order. -/
def most_common (n : Nat) (l : List String) : List String :=
  (stableSortDesc (fun k => l.count k) (distinctKeys l)).take n

/-- Python's `list.sort(key=lambda x: x[1], reverse=True)` on scored pairs. -/
def sortByScoreDesc {α : Type} (l : List (α × Nat)) : List (α × Nat) :=
  stableSortDesc (fun x => x.2) l

/-- The `ElectronicPart` dataclass.  `price` is stored in hundredths (the
sample data's floats are exact multiples of 0.01, and no modelled behaviour
reads the numeric value). -/
structure ElectronicPart where
  part_number : String
  manufacturer : String
  description : String
  category : String
  price : Option Nat
  stock : Option Nat
  datasheet_url : Option String
  image_url : Option String
  specifications : Option (List (String × String))
deriving DecidableEq

/-- One entry of `IntelligentSearchEngine.search_history` (a dict with keys
`query`, `context`, `timestamp`). -/
structure SearchRecord where
  query : String
  context : String
  timestamp : Nat
deriving DecidableEq

/-- One value of the `RecommendationEngine.user_profiles` mapping. -/
structure UserProfile where
  search_history : List SearchRecord
  preferences : List (String × String)
  favorite_categories : List String
  preferred_manufacturers : List String
deriving DecidableEq

/-- The dict returned by `IntelligentSearchEngine.search`. -/
structure SearchDict where
  original_query : String
  enhanced_query : String
  results : List ElectronicPart
  recommendations : List String
  total_found : Nat
  search_context : String
deriving DecidableEq

/-- The dict returned by `MouserSearchApp.search_parts` (the search dict plus
`personalized_recommendations`). -/
structure AppResult where
  original_query : String
  enhanced_query : String
  results : List ElectronicPart
  recommendations : List String
  total_found : Nat
  search_context : String
  personalized_recommendations : List String
deriving DecidableEq

/-- Mutable state of `IntelligentSearchEngine`: the process-wide history list,
plus a counter standing for the wall clock used for timestamps. -/
structure EngineState where
  history : List SearchRecord
  clock : Nat
deriving DecidableEq

/-- Mutable state of the whole `MouserSearchApp`: the engine state and the
`user_profiles` mapping of `RecommendationEngine`. -/
structure AppState where
  engine : EngineState
  profiles : String → Option UserProfile

/-- Deterministic models of the external collaborators and library functions
(see the header comment). -/
structure Oracle where
  fuzzPartial : String → String → Nat
  fuzzFull : String → String → Nat
  catalog : String → Nat → Option (List ElectronicPart)
  enhance : String → String → Option String
  genRecs : List ElectronicPart → String → Option String
  setList : List String → List String

/-- A valid enumeration of a Python set built from a list: no duplicates, and
exactly the elements of the list.  Nothing more is guaranteed about the order. -/
def SetEnumOK (f : List String → List String) : Prop :=
  ∀ xs, (f xs).Nodup ∧ ∀ a, a ∈ f xs ↔ a ∈ xs

/-- The five sample parts of `MouserAPIClient._fallback_search`. -/
def sample_parts : List ElectronicPart :=
  [⟨"A000066", "Arduino", "Arduino Uno R3 Microcontroller Board",
    "Development Boards", some 2500, some 150,
    some "https://store.arduino.cc/products/arduino-uno-rev3", none,
    some [("Voltage", "5V"), ("Digital Pins", "14"), ("Analog Pins", "6")]⟩,
   ⟨"LM358N", "Texas Instruments", "LM358 Dual Operational Amplifier",
    "Amplifiers", some 50, some 5000,
    some "https://www.ti.com/lit/ds/symlink/lm358.pdf", none,
    some [("Supply Voltage", "3V to 32V"), ("Input Offset", "2mV"), ("Package", "DIP-8")]⟩,
   ⟨"CF14JT10K0", "Stackpole Electronics", "10k Ohm Resistor 1/4W 5%",
    "Resistors", some 10, some 10000, none, none,
    some [("Resistance", "10k Ohm"), ("Power", "1/4W"), ("Tolerance", "5%")]⟩,
   ⟨"ESP32-WROOM-32", "Espressif", "ESP32 WiFi & Bluetooth Module",
    "Wireless Modules", some 850, some 200, none, none,
    some [("WiFi", "802.11 b/g/n"), ("Bluetooth", "4.2"), ("CPU", "Dual-core 240MHz")]⟩,
   ⟨"2N3904", "ON Semiconductor", "NPN General Purpose Transistor",
    "Transistors", some 25, some 2500, none, none,
    some [("Type", "NPN"), ("Vce", "40V"), ("Ic", "200mA"), ("Package", "TO-92")]⟩]

/-- `MouserAPIClient._fallback_search`: keyword-match the sample parts; if
nothing matches, fall back to the first `min limit 5` sample parts; in every
case truncate to `limit`. -/
def MouserAPIClient.fallback_search (search_term : String) (limit : Nat) :
    List ElectronicPart :=
  let search_lower := strLower search_term
  let matching_parts := sample_parts.filter (fun part =>
    strIn search_lower (strLower part.part_number) ||
    strIn search_lower (strLower part.manufacturer) ||
    strIn search_lower (strLower part.description) ||
    strIn search_lower (strLower part.category))
  let matching_parts :=
    if matching_parts.isEmpty then sample_parts.take (min limit sample_parts.length)
    else matching_parts
  matching_parts.take limit

/-- `MouserAPIClient.search_parts`: a successful catalog reply is returned as
parsed; any failure (404, raised exception, unexpected response structure)
takes the fallback path. -/
def MouserAPIClient.search_parts (o : Oracle) (search_term : String) (limit : Nat) :
    List ElectronicPart :=
  match o.catalog search_term limit with
  | none => MouserAPIClient.fallback_search search_term limit
  | some parts => parts

/-- `GeminiAIAssistant.enhance_search_query`: use the stripped model reply when
the call succeeds and the reply is non-empty, otherwise the original query. -/
def GeminiAIAssistant.enhance_search_query (o : Oracle) (user_query context : String) :
    String :=
  match o.enhance user_query context with
  | none => user_query
  | some text =>
    let enhanced_query := strTrim text
    if enhanced_query = "" then user_query else enhanced_query

/-- `GeminiAIAssistant._fallback_recommendations`: templated lines built from a
`set` of the manufacturers and categories of the results, truncated to 3. -/
def GeminiAIAssistant.fallback_recommendations (o : Oracle)
    (search_results : List ElectronicPart) (user_query : String) : List String :=
  let recommendations :=
    if search_results.isEmpty then []
    else
      let manufacturers := o.setList (search_results.map (fun part => part.manufacturer))
      let categories := o.setList (search_results.map (fun part => part.category))
      (match manufacturers with
       | [] => []
       | m :: _ => ["Consider other products from " ++ m ++ " for similar quality"]) ++
      (match categories with
       | [] => []
       | c :: _ => ["Explore more " ++ c ++ " for your project needs"]) ++
      ["Check datasheets for detailed specifications and compatibility",
       "Consider bulk pricing for multiple units"]
  recommendations.take 3

/-- `GeminiAIAssistant.generate_recommendations`: empty results give an empty
list; a failed or empty model reply gives the fallback lines; otherwise the
non-blank stripped lines of the reply, at most 5. -/
def GeminiAIAssistant.generate_recommendations (o : Oracle)
    (search_results : List ElectronicPart) (user_query : String) : List String :=
  if search_results.isEmpty then []
  else
    match o.genRecs search_results user_query with
    | none => GeminiAIAssistant.fallback_recommendations o search_results user_query
    | some text =>
      let recommendations_text := strTrim text
      if recommendations_text = "" then
        GeminiAIAssistant.fallback_recommendations o search_results user_query
      else
        (((splitLines recommendations_text).map strTrim).filter
          (fun r => r ≠ "")).take 5

/-- The searchable text `IntelligentSearchEngine._apply_fuzzy_matching` builds
for a part. -/
def searchableText (part : ElectronicPart) : String :=
  part.part_number ++ " " ++ part.manufacturer ++ " " ++ part.description ++ " " ++
    part.category

/-- The partial-ratio score `_apply_fuzzy_matching` computes for a part. -/
def partialScore (o : Oracle) (query : String) (part : ElectronicPart) : Nat :=
  o.fuzzPartial (strLower query) (strLower (searchableText part))

/-- `IntelligentSearchEngine._apply_fuzzy_matching`: score each part, keep the
parts scoring at least `threshold`, stable-sort by descending score. -/
def IntelligentSearchEngine.apply_fuzzy_matching (o : Oracle)
    (results : List ElectronicPart) (query : String) (threshold : Nat) :
    List ElectronicPart :=
  if results.isEmpty then results
  else
    let scored := results.map (fun part => (part, partialScore o query part))
    let filtered_results := scored.filter (fun x => threshold ≤ x.2)
    (sortByScoreDesc filtered_results).map (fun x => x.1)

/-- `IntelligentSearchEngine.search`: record the query in the process-wide
history, enhance, query the catalog (default limit 20), fuzzy-filter, generate
recommendation text, and assemble the result dict. -/
def IntelligentSearchEngine.search (o : Oracle) (st : EngineState)
    (query user_context : String) (fuzzy_threshold : Nat) :
    SearchDict × EngineState :=
  let st' : EngineState :=
    ⟨st.history ++ [⟨query, user_context, st.clock⟩], st.clock + 1⟩
  let enhanced_query := GeminiAIAssistant.enhance_search_query o query user_context
  let raw_results := MouserAPIClient.search_parts o enhanced_query 20
  let filtered_results :=
    IntelligentSearchEngine.apply_fuzzy_matching o raw_results query fuzzy_threshold
  let recommendations :=
    GeminiAIAssistant.generate_recommendations o filtered_results query
  (⟨query, enhanced_query, filtered_results, recommendations,
    filtered_results.length, user_context⟩, st')

/-- The full-ratio score `get_similar_parts` computes between the reference
description and a candidate description. -/
def fullScore (o : Oracle) (ref part : ElectronicPart) : Nat :=
  o.fuzzFull ref.description part.description

/-- `IntelligentSearchEngine.get_similar_parts`: resolve the reference by a
single-result lookup, search `"manufacturer category"` for `2 * limit`
candidates, drop the reference part number, keep full-ratio scores above 60,
stable-sort by descending score, truncate to `limit`. -/
def IntelligentSearchEngine.get_similar_parts (o : Oracle) (part_number : String)
    (limit : Nat) : List ElectronicPart :=
  match MouserAPIClient.search_parts o part_number 1 with
  | [] => []
  | reference_part :: _ =>
    let similar_query := reference_part.manufacturer ++ " " ++ reference_part.category
    let similar_results := MouserAPIClient.search_parts o similar_query (limit * 2)
    let filtered_results :=
      ((similar_results.filter
          (fun part => part.part_number ≠ reference_part.part_number)).map
        (fun part => (part, fullScore o reference_part part))).filter
        (fun x => 60 < x.2)
    ((sortByScoreDesc filtered_results).take limit).map (fun x => x.1)

/-- The category the elif-chain of
`RecommendationEngine._extract_favorite_categories` assigns to a lowercased
query, if any. -/
def categoryOf (query : String) : Option String :=
  if strIn "resistor" query then some "Resistors"
  else if strIn "capacitor" query then some "Capacitors"
  else if strIn "transistor" query then some "Transistors"
  else if strIn "ic" query || strIn "integrated circuit" query then
    some "Integrated Circuits"
  else none

/-- `RecommendationEngine._extract_favorite_categories`: one tally per query at
most (the elif chain), then `Counter(...).most_common(5)`. -/
def RecommendationEngine.extract_favorite_categories
    (search_history : List SearchRecord) : List String :=
  most_common 5 (search_history.filterMap (fun s => categoryOf (strLower s.query)))

/-- The fixed manufacturer-fragment vocabulary of
`RecommendationEngine._extract_preferred_manufacturers`. -/
def common_manufacturers : List String :=
  ["ti", "texas instruments", "analog devices", "maxim", "linear",
   "stmicroelectronics", "infineon", "nxp"]

/-- `RecommendationEngine._extract_preferred_manufacturers`: every fragment
contained in the lowercased query is tallied, title-cased, then
`Counter(...).most_common(5)`. -/
def RecommendationEngine.extract_preferred_manufacturers
    (search_history : List SearchRecord) : List String :=
  most_common 5 (search_history.flatMap (fun s =>
    (common_manufacturers.filter (fun mfg => strIn mfg (strLower s.query))).map pyTitle))

/-- `RecommendationEngine.update_user_profile`: store a profile derived from
the given history under the given user id. -/
def RecommendationEngine.update_user_profile
    (profiles : String → Option UserProfile) (user_id : String)
    (search_history : List SearchRecord) (preferences : List (String × String)) :
    String → Option UserProfile :=
  fun x =>
    if x = user_id then
      some ⟨search_history, preferences,
        RecommendationEngine.extract_favorite_categories search_history,
        RecommendationEngine.extract_preferred_manufacturers search_history⟩
    else profiles x

/-- A `"Popular in <category>: <part_number> - <description>"` line. -/
def popularLine (category : String) (top_part : ElectronicPart) : String :=
  "Popular in " ++ category ++ ": " ++ top_part.part_number ++ " - " ++
    top_part.description

/-- A `"From <manufacturer>: <part_number> - <description>"` line. -/
def fromLine (manufacturer : String) (top_part : ElectronicPart) : String :=
  "From " ++ manufacturer ++ ": " ++ top_part.part_number ++ " - " ++
    top_part.description

/-- The loop body of `RecommendationEngine.get_personalized_recommendations`:
append a line for the top result when the internal search found any. -/
def recStep (line : String → ElectronicPart → String) (item : String)
    (recommendations : List String) (results : List ElectronicPart) :
    List String :=
  match results with
  | [] => recommendations
  | top_part :: _ => recommendations ++ [line item top_part]

/-- One loop of `RecommendationEngine.get_personalized_recommendations`: for
each item run a full engine search (context `""`, threshold 80) and, when it
has results, append a line for its top result. -/
def recFold (o : Oracle) (line : String → ElectronicPart → String) :
    List String → List String → EngineState → List String × EngineState
  | [], recommendations, st => (recommendations, st)
  | item :: rest, recommendations, st =>
    recFold o line rest
      (recStep line item recommendations
        (IntelligentSearchEngine.search o st item "" 80).1.results)
      (IntelligentSearchEngine.search o st item "" 80).2

/-- `RecommendationEngine.get_personalized_recommendations`: no profile gives
`[]`; otherwise search for the top 3 favorite categories and the top 2
preferred manufacturers (mutating the engine state) and return at most 5
lines. -/
def RecommendationEngine.get_personalized_recommendations (o : Oracle)
    (profiles : String → Option UserProfile) (st : EngineState)
    (user_id current_query : String) : List String × EngineState :=
  match profiles user_id with
  | none => ([], st)
  | some profile =>
    let (recs₁, st₁) := recFold o popularLine (profile.favorite_categories.take 3) [] st
    let (recs₂, st₂) := recFold o fromLine (profile.preferred_manufacturers.take 2) recs₁ st₁
    (recs₂.take 5, st₂)

/-- `MouserSearchApp.search_parts`: engine search, then personalized
recommendations from the profile as it was before this call, then a profile
update from the (shared, process-wide) engine history. -/
def MouserSearchApp.search_parts (o : Oracle) (s : AppState)
    (query user_id context : String) : AppResult × AppState :=
  let (search_results, eng₁) := IntelligentSearchEngine.search o s.engine query context 80
  let (personalized_recs, eng₂) :=
    RecommendationEngine.get_personalized_recommendations o s.profiles eng₁ user_id query
  let profiles' :=
    RecommendationEngine.update_user_profile s.profiles user_id eng₂.history []
  (⟨search_results.original_query, search_results.enhanced_query,
    search_results.results, search_results.recommendations,
    search_results.total_found, search_results.search_context,
    personalized_recs⟩,
   ⟨eng₂, profiles'⟩)

/-- The `/search` route of `app.py`: strip the query, reject an empty result
with a 400 error before anything else runs, otherwise delegate to
`MouserSearchApp.search_parts`. -/
def flaskSearch (o : Oracle) (s : AppState) (rawQuery context : String)
    (sessionUser : Option String) : Except String AppResult × AppState :=
  let query := strTrim rawQuery
  let user_id := sessionUser.getD "anonymous"
  if query = "" then (Except.error "Search query is required", s)
  else
    let (results, s') := MouserSearchApp.search_parts o s query user_id context
    (Except.ok results, s')

/-- The state of a freshly constructed `MouserSearchApp`: empty history, empty
profile mapping. -/
def appInit : AppState := ⟨⟨[], 0⟩, fun _ => none⟩

/-- Run a list of `(query, user_id, context)` requests through
`MouserSearchApp.search_parts`, collecting the results. -/
def runList (o : Oracle) : AppState → List (String × String × String) →
    List AppResult × AppState
  | s, [] => ([], s)
  | s, (query, user_id, context) :: rest =>
    let (r, s') := MouserSearchApp.search_parts o s query user_id context
    let (rs, s'') := runList o s' rest
    (r :: rs, s'')

/-- A partial-ratio stand-in for concrete runs: 100 when the first string
occurs verbatim in the second (on such inputs the real metric is also 100),
otherwise 0. -/
def subScore (q t : String) : Nat := if strIn q t then 100 else 0

/-- A deterministic concrete oracle for concrete runs: the catalog echoes the
search term as a single part, the enhancer echoes the query, the generator
replies `"ok"`. -/
def oracle₀ : Oracle :=
  ⟨subScore, subScore,
   fun term _ => some [⟨term, "M", term, "C", none, none, none, none, none⟩],
   fun q _ => some q,
   fun _ _ => some "ok",
   distinctKeys⟩

/-- The candidate list of `get_similar_parts` after its two filters: the
secondary `"manufacturer category"` lookup with the reference part number
removed and only full-ratio scores above 60 kept. -/
def simCandidates (o : Oracle) (ref : ElectronicPart) (limit : Nat) :
    List ElectronicPart :=
  ((MouserAPIClient.search_parts o (ref.manufacturer ++ " " ++ ref.category)
      (limit * 2)).filter
    (fun part => part.part_number ≠ ref.part_number)).filter
    (fun part => 60 < fullScore o ref part)

/-- The part the echoing concrete oracle resolves `"LM358N"` to. -/
def lmRef : ElectronicPart :=
  ⟨"LM358N", "M", "LM358N", "C", none, none, none, none, none⟩

/-- A concrete oracle whose catalog succeeds with an empty parts list. -/
def oracleEmptyCat : Oracle :=
  ⟨subScore, subScore, fun _ _ => some [], fun q _ => some q,
   fun _ _ => some "ok", distinctKeys⟩

/-- A concrete oracle whose catalog call always fails. -/
def oracleFailCat : Oracle :=
  ⟨subScore, subScore, fun _ _ => none, fun q _ => some q,
   fun _ _ => some "ok", distinctKeys⟩

/-- A concrete oracle whose recommendation-text generator always fails. -/
def oracleFailGen : Oracle :=
  ⟨subScore, subScore, fun _ _ => some [], fun q _ => some q,
   fun _ _ => none, distinctKeys⟩

/-- The queries `get_personalized_recommendations` searches for: the top 3
favorite categories followed by the top 2 preferred manufacturers of the
profile, nothing when there is no profile. -/
def recQueries : Option UserProfile → List String
  | none => []
  | some profile =>
    profile.favorite_categories.take 3 ++ profile.preferred_manufacturers.take 2

/-- The search records appended for a list of internal queries, starting at a
given clock value. -/
def recRecordsFrom (clock : Nat) : List String → List SearchRecord
  | [] => []
  | q :: qs => ⟨q, "", clock⟩ :: recRecordsFrom (clock + 1) qs

/-- A profile mapping with a single user whose only favorite category is
`"Resistors"`. -/
def profilesOne : String → Option UserProfile :=
  fun u => if u = "u" then some ⟨[], [], ["Resistors"], []⟩ else none

/-- A profile mapping with a single user who HAS a stored profile — derived
from a history whose only query is `"led"` — but whose favorite-category and
preferred-manufacturer lists are both empty. -/
def profilesEmptyLists : String → Option UserProfile :=
  fun u => if u = "w" then some ⟨[⟨"led", "", 0⟩], [], [], []⟩ else none

/-- The fallback recommendations as the claim words them: built from the first
manufacturer and the first category APPEARING among the ranked results. -/
def claimedFallback (search_results : List ElectronicPart) : List String :=
  match search_results with
  | [] => []
  | p :: _ =>
    ["Consider other products from " ++ p.manufacturer ++ " for similar quality",
     "Explore more " ++ p.category ++ " for your project needs",
     "Check datasheets for detailed specifications and compatibility"]

/-- A set enumeration that lists the distinct elements in reverse
first-occurrence order: a legitimate possibility for a Python `set`, whose
iteration order is unspecified. -/
def revDistinct (xs : List String) : List String := (distinctKeys xs).reverse

/-- A concrete oracle with a failing generator and the reversed set
enumeration. -/
def oracleBadSet : Oracle :=
  ⟨subScore, subScore, fun _ _ => some [], fun q _ => some q,
   fun _ _ => none, revDistinct⟩

/-- A part by manufacturer `"Beta"`, listed first in the counterexample. -/
def partBeta : ElectronicPart :=
  ⟨"P1", "Beta", "d", "CB", none, none, none, none, none⟩

/-- A part by manufacturer `"Alpha"`, listed second in the counterexample. -/
def partAlpha : ElectronicPart :=
  ⟨"P2", "Alpha", "d", "CA", none, none, none, none, none⟩

/-- The category vocabulary as the spec words it: trigger substrings mapped to
canonical labels, with the two triggers of `"Integrated Circuits"` grouped. -/
def categoryVocab : List (List String × String) :=
  [(["resistor"], "Resistors"), (["capacitor"], "Capacitors"),
   (["transistor"], "Transistors"), (["ic", "integrated circuit"], "Integrated Circuits")]

/-- Favorite categories as the claim words them: a tally for EVERY vocabulary
entry whose trigger occurs in the query (not just the first). -/
def extract_favorite_categories_claimed (history : List SearchRecord) : List String :=
  most_common 5 (history.flatMap (fun s =>
    (categoryVocab.filter (fun t =>
      t.1.any (fun trig => strIn trig (strLower s.query)))).map (fun t => t.2)))

/-- The first vocabulary entry (in table order) with a trigger occurring in
the query, if any. -/
def firstCategoryMatch (q : String) : Option String :=
  (categoryVocab.find? (fun t => t.1.any (fun trig => strIn trig q))).map
    (fun t => t.2)

/-- Favorite categories as amended: at most one tally per query, given by the
first matching vocabulary entry in table order. -/
def extract_favorite_categories_amended (history : List SearchRecord) : List String :=
  most_common 5 (history.filterMap (fun s => firstCategoryMatch (strLower s.query)))

/-- Preferred manufacturers as the claim words them: for every fragment of the
fixed vocabulary occurring in the lowercased query, record its title-cased
form; then keep the 5 most frequent. -/
def extract_preferred_manufacturers_claimed (history : List SearchRecord) :
    List String :=
  most_common 5 (history.flatMap (fun s =>
    common_manufacturers.filterMap (fun mfg =>
      if strIn mfg (strLower s.query) then some (pyTitle mfg) else none)))

theorem insertByKeyDesc_perm {α : Type} (key : α → Nat) (x : α) (l : List α) :
    List.Perm (insertByKeyDesc key x l) (x :: l) := by
  induction l with
  | nil => simp [insertByKeyDesc]
  | cons y ys ih =>
    by_cases h : key y ≤ key x
    · simp [insertByKeyDesc, h]
    · simp only [insertByKeyDesc, if_neg h]
      exact (ih.cons y).trans (List.Perm.swap x y ys)

theorem stableSortDesc_perm {α : Type} (key : α → Nat) (l : List α) :
    List.Perm (stableSortDesc key l) l := by
  induction l with
  | nil => simp [stableSortDesc]
  | cons x xs ih => exact (insertByKeyDesc_perm key x _).trans (ih.cons x)

theorem mem_stableSortDesc {α : Type} {key : α → Nat} {l : List α} {a : α} :
    a ∈ stableSortDesc key l ↔ a ∈ l :=
  (stableSortDesc_perm key l).mem_iff

theorem insertByKeyDesc_pairwise {α : Type} {key : α → Nat} {x : α} {l : List α}
    (h : l.Pairwise (fun a b => key b ≤ key a)) :
    (insertByKeyDesc key x l).Pairwise (fun a b => key b ≤ key a) := by
  induction l with
  | nil => simp [insertByKeyDesc]
  | cons y ys ih =>
    rcases List.pairwise_cons.mp h with ⟨hy, hys⟩
    by_cases hle : key y ≤ key x
    · rw [insertByKeyDesc, if_pos hle]
      refine List.pairwise_cons.mpr ⟨?_, h⟩
      intro z hz
      rcases List.mem_cons.mp hz with rfl | hz
      · exact hle
      · exact le_trans (hy z hz) hle
    · rw [insertByKeyDesc, if_neg hle]
      refine List.pairwise_cons.mpr ⟨?_, ih hys⟩
      intro z hz
      rcases List.mem_cons.mp ((insertByKeyDesc_perm key x ys).mem_iff.mp hz) with rfl | hz
      · omega
      · exact hy z hz

theorem stableSortDesc_pairwise {α : Type} (key : α → Nat) (l : List α) :
    (stableSortDesc key l).Pairwise (fun a b => key b ≤ key a) := by
  induction l with
  | nil => simp [stableSortDesc]
  | cons x xs ih => exact insertByKeyDesc_pairwise ih

theorem insertByKeyDesc_filter {α : Type} (key : α → Nat) (x : α) (l : List α)
    (s : Nat) :
    (insertByKeyDesc key x l).filter (fun y => key y = s)
      = if key x = s then x :: l.filter (fun y => key y = s)
        else l.filter (fun y => key y = s) := by
  induction l with
  | nil => by_cases h : key x = s <;> simp [insertByKeyDesc, h]
  | cons y ys ih =>
    by_cases hle : key y ≤ key x
    · rw [insertByKeyDesc, if_pos hle, List.filter_cons]
      by_cases hx : key x = s <;> simp [hx]
    · rw [insertByKeyDesc, if_neg hle, List.filter_cons, List.filter_cons, ih]
      by_cases hx : key x = s
      · have hy : ¬ key y = s := by omega
        simp [hx, hy]
      · simp [hx]

theorem stableSortDesc_filter {α : Type} (key : α → Nat) (l : List α) (s : Nat) :
    (stableSortDesc key l).filter (fun y => key y = s)
      = l.filter (fun y => key y = s) := by
  induction l with
  | nil => rfl
  | cons x xs ih =>
    by_cases hx : key x = s <;>
      simp [stableSortDesc, insertByKeyDesc_filter, hx, List.filter_cons, ih]

theorem sortByScoreDesc_perm {α : Type} (l : List (α × Nat)) :
    List.Perm (sortByScoreDesc l) l :=
  stableSortDesc_perm _ l

theorem sortByScoreDesc_pairwise {α : Type} (l : List (α × Nat)) :
    (sortByScoreDesc l).Pairwise (fun a b => b.2 ≤ a.2) :=
  stableSortDesc_pairwise _ l

theorem sortByScoreDesc_filter {α : Type} (l : List (α × Nat)) (s : Nat) :
    (sortByScoreDesc l).filter (fun y => y.2 = s) = l.filter (fun y => y.2 = s) :=
  stableSortDesc_filter _ l s

theorem take_filter_take {α : Type} (p : α → Bool) (l : List α) :
    ∀ n : Nat, ∃ m, (l.take n).filter p = (l.filter p).take m := by
  induction l with
  | nil => intro n; exact ⟨0, by simp⟩
  | cons x xs ih =>
    intro n
    cases n with
    | zero => exact ⟨0, by simp⟩
    | succ n =>
      obtain ⟨m, hm⟩ := ih n
      by_cases hx : p x
      · exact ⟨m + 1, by simp [List.take_succ_cons, List.filter_cons, hx, hm]⟩
      · exact ⟨m, by simp [List.take_succ_cons, List.filter_cons, hx, hm]⟩

theorem map_fst_map_pair {α β : Type} (f : α → β) (l : List α) :
    (l.map (fun p => (p, f p))).map (fun x => x.1) = l := by
  induction l with
  | nil => rfl
  | cons x xs ih => simp [ih]

theorem snd_eq_of_mem_map_pair {α β : Type} {f : α → β} {l : List α} {x : α × β}
    (h : x ∈ l.map (fun p => (p, f p))) : x.2 = f x.1 := by
  rcases List.mem_map.mp h with ⟨p, hp, rfl⟩
  rfl

theorem apply_fuzzy_matching_eq (o : Oracle) (results : List ElectronicPart)
    (query : String) (threshold : Nat) :
    IntelligentSearchEngine.apply_fuzzy_matching o results query threshold
      = (sortByScoreDesc
          ((results.filter (fun p => threshold ≤ partialScore o query p)).map
            (fun p => (p, partialScore o query p)))).map (fun x => x.1) := by
  by_cases h : results.isEmpty
  · have : results = [] := List.isEmpty_iff.mp h
    subst this; rfl
  · simp only [IntelligentSearchEngine.apply_fuzzy_matching, if_neg h,
      List.filter_map]
    rfl

/-- C1: `_apply_fuzzy_matching` returns a permutation of exactly those input
candidates whose partial-ratio score (of the lowercased query against the
lowercased `"part_number manufacturer description category"` text) reaches the
threshold, sorted by non-increasing score; candidates of equal score keep
their original relative order; an empty candidate list yields `[]`. -/
theorem fuzzy_matching_spec (o : Oracle) (results : List ElectronicPart)
    (query : String) (threshold : Nat) :
    List.Perm (IntelligentSearchEngine.apply_fuzzy_matching o results query threshold)
      (results.filter (fun p => threshold ≤ partialScore o query p))
    ∧ (IntelligentSearchEngine.apply_fuzzy_matching o results query threshold).Pairwise
        (fun a b => partialScore o query b ≤ partialScore o query a)
    ∧ (∀ s : Nat,
        (IntelligentSearchEngine.apply_fuzzy_matching o results query threshold).filter
            (fun p => partialScore o query p = s)
          = (results.filter (fun p => threshold ≤ partialScore o query p)).filter
              (fun p => partialScore o query p = s))
    ∧ IntelligentSearchEngine.apply_fuzzy_matching o [] query threshold = [] := by
  have heq := apply_fuzzy_matching_eq o results query threshold
  refine ⟨?_, ?_, ?_, rfl⟩
  · rw [heq]
    refine ((sortByScoreDesc_perm _).map _).trans (List.Perm.of_eq ?_)
    exact map_fst_map_pair _ _
  · rw [heq, List.pairwise_map]
    refine List.Pairwise.imp_of_mem ?_ (sortByScoreDesc_pairwise _)
    intro a b ha hb hr
    have ha2 := snd_eq_of_mem_map_pair (mem_stableSortDesc.mp ha)
    have hb2 := snd_eq_of_mem_map_pair (mem_stableSortDesc.mp hb)
    rw [ha2, hb2] at hr
    exact hr
  · intro s
    rw [heq, List.filter_map]
    have hcongr :
        (sortByScoreDesc
            ((results.filter (fun p => threshold ≤ partialScore o query p)).map
              (fun p => (p, partialScore o query p)))).filter
          ((fun p => decide (partialScore o query p = s)) ∘ (fun x => x.1))
          = (sortByScoreDesc
              ((results.filter (fun p => threshold ≤ partialScore o query p)).map
                (fun p => (p, partialScore o query p)))).filter
            (fun y => y.2 = s) := by
      refine List.filter_congr ?_
      intro x hx
      have hx2 := snd_eq_of_mem_map_pair (mem_stableSortDesc.mp hx)
      simp [Function.comp, hx2]
    rw [hcongr, sortByScoreDesc_filter, List.filter_map, map_fst_map_pair]
    rfl

theorem get_similar_parts_eq (o : Oracle) (part_number : String) (limit : Nat)
    (ref : ElectronicPart) (rest : List ElectronicPart)
    (h : MouserAPIClient.search_parts o part_number 1 = ref :: rest) :
    IntelligentSearchEngine.get_similar_parts o part_number limit
      = ((sortByScoreDesc ((simCandidates o ref limit).map
          (fun p => (p, fullScore o ref p)))).take limit).map (fun x => x.1) := by
  simp only [IntelligentSearchEngine.get_similar_parts, h]
  simp only [simCandidates, List.filter_map]
  rfl

/-- C6: `get_similar_parts` never returns the reference part number, returns
only candidates of full-ratio score strictly above 60 against the reference
description, returns at most `limit` parts, sorted by non-increasing score
with ties keeping candidate order (each equal-score bucket of the output is an
initial segment of the corresponding candidate bucket); a reference lookup
with no record yields `[]`, not an error. -/
theorem similar_parts_spec (o : Oracle) (part_number : String) (limit : Nat) :
    (MouserAPIClient.search_parts o part_number 1 = [] →
      IntelligentSearchEngine.get_similar_parts o part_number limit = [])
    ∧ ∀ ref rest, MouserAPIClient.search_parts o part_number 1 = ref :: rest →
        (∀ p ∈ IntelligentSearchEngine.get_similar_parts o part_number limit,
            p.part_number ≠ ref.part_number ∧ 60 < fullScore o ref p)
        ∧ (IntelligentSearchEngine.get_similar_parts o part_number limit).length
            ≤ limit
        ∧ (IntelligentSearchEngine.get_similar_parts o part_number limit).Pairwise
            (fun a b => fullScore o ref b ≤ fullScore o ref a)
        ∧ ∀ s : Nat, ∃ m,
            (IntelligentSearchEngine.get_similar_parts o part_number limit).filter
                (fun p => fullScore o ref p = s)
              = ((simCandidates o ref limit).filter
                  (fun p => fullScore o ref p = s)).take m := by
  constructor
  · intro h
    simp [IntelligentSearchEngine.get_similar_parts, h]
  · intro ref rest h
    have heq := get_similar_parts_eq o part_number limit ref rest h
    have hmemL :
        ∀ x : ElectronicPart × Nat,
          x ∈ (simCandidates o ref limit).map (fun p => (p, fullScore o ref p)) →
            x.1 ∈ simCandidates o ref limit ∧ x.2 = fullScore o ref x.1 := by
      intro x hx
      rcases List.mem_map.mp hx with ⟨p, hp, rfl⟩
      exact ⟨hp, rfl⟩
    have hmemTake :
        ∀ x : ElectronicPart × Nat,
          x ∈ (sortByScoreDesc ((simCandidates o ref limit).map
                (fun p => (p, fullScore o ref p)))).take limit →
            x.1 ∈ simCandidates o ref limit ∧ x.2 = fullScore o ref x.1 := by
      intro x hx
      exact hmemL x (mem_stableSortDesc.mp (List.take_subset _ _ hx))
    refine ⟨?_, ?_, ?_, ?_⟩
    · intro p hp
      rw [heq] at hp
      rcases List.mem_map.mp hp with ⟨x, hx, rfl⟩
      have hx' := (hmemTake x hx).1
      rcases List.mem_filter.mp hx' with ⟨hx'', hscore⟩
      rcases List.mem_filter.mp hx'' with ⟨-, hpn⟩
      constructor
      · simpa using hpn
      · simpa using hscore
    · rw [heq, List.length_map]
      exact (List.length_take_le _ _)
    · rw [heq, List.pairwise_map]
      refine List.Pairwise.imp_of_mem ?_
        ((sortByScoreDesc_pairwise _).sublist (List.take_sublist _ _))
      intro a b ha hb hr
      rw [(hmemTake a ha).2, (hmemTake b hb).2] at hr
      exact hr
    · intro s
      rw [heq, List.filter_map]
      have hcongr :
          ((sortByScoreDesc ((simCandidates o ref limit).map
                (fun p => (p, fullScore o ref p)))).take limit).filter
              ((fun p => decide (fullScore o ref p = s)) ∘ (fun x => x.1))
            = ((sortByScoreDesc ((simCandidates o ref limit).map
                  (fun p => (p, fullScore o ref p)))).take limit).filter
                (fun y => y.2 = s) := by
        refine List.filter_congr ?_
        intro x hx
        simp [Function.comp, (hmemTake x hx).2]
      rw [hcongr]
      obtain ⟨m, hm⟩ := take_filter_take (fun y : ElectronicPart × Nat => y.2 = s)
        (sortByScoreDesc ((simCandidates o ref limit).map
          (fun p => (p, fullScore o ref p)))) limit
      refine ⟨m, ?_⟩
      rw [hm, sortByScoreDesc_filter, List.filter_map, ← List.map_take,
        map_fst_map_pair]
      rfl

theorem similar_parts_spec_witness :
    (MouserAPIClient.search_parts oracleEmptyCat "X1" 1 = [] ∧
      IntelligentSearchEngine.get_similar_parts oracleEmptyCat "X1" 5 = [])
    ∧ (MouserAPIClient.search_parts oracle₀ "LM358N" 1 = lmRef :: [] ∧
       ((∀ p ∈ IntelligentSearchEngine.get_similar_parts oracle₀ "LM358N" 5,
            p.part_number ≠ lmRef.part_number ∧ 60 < fullScore oracle₀ lmRef p)
        ∧ (IntelligentSearchEngine.get_similar_parts oracle₀ "LM358N" 5).length ≤ 5
        ∧ (IntelligentSearchEngine.get_similar_parts oracle₀ "LM358N" 5).Pairwise
            (fun a b => fullScore oracle₀ lmRef b ≤ fullScore oracle₀ lmRef a)
        ∧ ∀ s : Nat, ∃ m,
            (IntelligentSearchEngine.get_similar_parts oracle₀ "LM358N" 5).filter
                (fun p => fullScore oracle₀ lmRef p = s)
              = ((simCandidates oracle₀ lmRef 5).filter
                  (fun p => fullScore oracle₀ lmRef p = s)).take m)) :=
  ⟨⟨rfl, (similar_parts_spec oracleEmptyCat "X1" 5).1 rfl⟩,
   ⟨rfl, (similar_parts_spec oracle₀ "LM358N" 5).2 lmRef [] rfl⟩⟩

/-- C2: an empty or whitespace-only query is rejected by the `/search` route
with the 400 request error, leaving the state untouched and with an outcome
independent of every collaborator (so no collaborator call can have been
observed); a query with any non-whitespace content never yields a request
error — the rejected empty query is the only request-error condition. -/
theorem search_route_invalid_input (o o' : Oracle) (s : AppState)
    (rawQuery context : String) (sessionUser : Option String) :
    (strTrim rawQuery = "" →
      flaskSearch o s rawQuery context sessionUser
          = (Except.error "Search query is required", s)
        ∧ flaskSearch o s rawQuery context sessionUser
          = flaskSearch o' s rawQuery context sessionUser)
    ∧ (strTrim rawQuery ≠ "" → ∃ r s',
        flaskSearch o s rawQuery context sessionUser = (Except.ok r, s')) := by
  constructor
  · intro h
    constructor <;> simp [flaskSearch, h]
  · intro h
    refine ⟨(MouserSearchApp.search_parts o s (strTrim rawQuery)
        (sessionUser.getD "anonymous") context).1,
      (MouserSearchApp.search_parts o s (strTrim rawQuery)
        (sessionUser.getD "anonymous") context).2, ?_⟩
    simp [flaskSearch, h]

theorem search_route_invalid_input_witness :
    ((flaskSearch oracle₀ appInit "   " "" none
        = (Except.error "Search query is required", appInit))
      ∧ flaskSearch oracle₀ appInit "   " "" none
        = flaskSearch oracleEmptyCat appInit "   " "" none)
    ∧ ∃ r s', flaskSearch oracle₀ appInit "resistor" "" none = (Except.ok r, s') :=
  ⟨(search_route_invalid_input oracle₀ oracleEmptyCat appInit "   " "" none).1 rfl,
   (search_route_invalid_input oracle₀ oracleEmptyCat appInit "resistor" "" none).2
     (by decide)⟩

theorem search_parts_profiles_other (o : Oracle) (s : AppState)
    (query user_id context : String) (x : String) (hx : x ≠ user_id) :
    ((MouserSearchApp.search_parts o s query user_id context).2).profiles x
      = s.profiles x := by
  simp [MouserSearchApp.search_parts, RecommendationEngine.update_user_profile, hx]

theorem runList_profiles_fresh (o : Oracle) (u : String) :
    ∀ (reqs : List (String × String × String)) (s : AppState),
      (∀ r ∈ reqs, r.2.1 ≠ u) →
      ((runList o s reqs).2).profiles u = s.profiles u := by
  intro reqs
  induction reqs with
  | nil => intro s h; rfl
  | cons r rest ih =>
    intro s h
    obtain ⟨q, uid, ctx⟩ := r
    have h1 : uid ≠ u := by
      have := h (q, uid, ctx) (List.mem_cons_self _ _)
      simpa using this
    show ((runList o (MouserSearchApp.search_parts o s q uid ctx).2 rest).2).profiles u
        = s.profiles u
    rw [ih _ (fun r hr => h r (List.mem_cons_of_mem _ hr))]
    exact search_parts_profiles_other o s q uid ctx u (fun he => h1 he.symm)

/-- C10: a user who has not appeared in any earlier request gets an empty
`personalized_recommendations` sequence on their first search, whatever the
query, because `MouserSearchApp.search_parts` only writes the user's profile
after the personalized recommendations for the call have been computed. -/
theorem first_search_no_personalized (o : Oracle)
    (reqs : List (String × String × String)) (u query context : String)
    (h : ∀ r ∈ reqs, r.2.1 ≠ u) :
    ((MouserSearchApp.search_parts o (runList o appInit reqs).2 query u
        context).1).personalized_recommendations = [] := by
  have hprof : ((runList o appInit reqs).2).profiles u = none := by
    rw [runList_profiles_fresh o u reqs appInit h]; rfl
  simp [MouserSearchApp.search_parts,
    RecommendationEngine.get_personalized_recommendations, hprof]

theorem first_search_no_personalized_witness :
    (∀ r ∈ [("resistor", "bob", "")], r.2.1 ≠ "alice")
    ∧ ((MouserSearchApp.search_parts oracle₀
          (runList oracle₀ appInit [("resistor", "bob", "")]).2 "resistor" "alice"
          "").1).personalized_recommendations = [] :=
  ⟨by decide, first_search_no_personalized oracle₀ [("resistor", "bob", "")]
      "alice" "resistor" "" (by decide)⟩

/-- C3 counterexample: with a failing catalog, `search_parts` for
`"arduino"`/limit 5 returns the matching sample part — not an empty sequence
as the claim states. -/
theorem catalog_failure_not_empty :
    oracleFailCat.catalog "arduino" 5 = none
    ∧ MouserAPIClient.search_parts oracleFailCat "arduino" 5
        = sample_parts.take 1
    ∧ MouserAPIClient.search_parts oracleFailCat "arduino" 5 ≠ [] :=
  ⟨rfl, by decide, by decide⟩

theorem fallback_search_subset (term : String) (limit : Nat) :
    ∀ p ∈ MouserAPIClient.fallback_search term limit, p ∈ sample_parts := by
  intro p hp
  simp only [MouserAPIClient.fallback_search] at hp
  have hp := List.take_subset _ _ hp
  split at hp
  · exact List.take_subset _ _ hp
  · exact (List.filter_sublist _).subset hp

/-- C3 amended: whenever the catalog call fails, `search_parts` never
propagates the error: it returns the deterministic sample-data fallback for
the term — a list drawn from the five built-in sample parts, truncated to
`limit`, and in general non-empty rather than empty. -/
theorem catalog_failure_fallback (o : Oracle) (term : String) (limit : Nat)
    (h : o.catalog term limit = none) :
    MouserAPIClient.search_parts o term limit
        = MouserAPIClient.fallback_search term limit
    ∧ (∀ p ∈ MouserAPIClient.search_parts o term limit, p ∈ sample_parts)
    ∧ (MouserAPIClient.search_parts o term limit).length ≤ limit := by
  have he : MouserAPIClient.search_parts o term limit
      = MouserAPIClient.fallback_search term limit := by
    simp [MouserAPIClient.search_parts, h]
  refine ⟨he, ?_, ?_⟩
  · rw [he]
    exact fallback_search_subset term limit
  · rw [he]
    simp only [MouserAPIClient.fallback_search]
    exact List.length_take_le _ _

theorem catalog_failure_fallback_witness :
    oracleFailCat.catalog "opamp" 3 = none
    ∧ (MouserAPIClient.search_parts oracleFailCat "opamp" 3
          = MouserAPIClient.fallback_search "opamp" 3
        ∧ (∀ p ∈ MouserAPIClient.search_parts oracleFailCat "opamp" 3,
            p ∈ sample_parts)
        ∧ (MouserAPIClient.search_parts oracleFailCat "opamp" 3).length ≤ 3) :=
  ⟨rfl, catalog_failure_fallback oracleFailCat "opamp" 3 rfl⟩

/-- C5 counterexample: two consecutive identical calls from a fresh state with
fully deterministic stubs return different `personalized_recommendations`
(empty on the first call, non-empty on the second), so the two `SearchResult`
values are not identical. -/
theorem repeat_search_personalized_differ :
    ((MouserSearchApp.search_parts oracle₀ appInit "resistor" "u" "").1).personalized_recommendations
        = []
    ∧ ((MouserSearchApp.search_parts oracle₀
          (MouserSearchApp.search_parts oracle₀ appInit "resistor" "u" "").2
          "resistor" "u" "").1).personalized_recommendations
        = ["Popular in Resistors: Resistors - Resistors"]
    ∧ (MouserSearchApp.search_parts oracle₀ appInit "resistor" "u" "").1
        ≠ (MouserSearchApp.search_parts oracle₀
            (MouserSearchApp.search_parts oracle₀ appInit "resistor" "u" "").2
            "resistor" "u" "").1 :=
  ⟨by decide, by decide, by decide⟩

/-- C5 amended: against deterministic stubs, two consecutive calls of the
top-level search with identical inputs agree on every field of the result
except `personalized_recommendations` (which may differ, because the first
call writes the user's profile). -/
theorem repeat_search_fields_agree (o : Oracle) (s : AppState)
    (query user_id context : String) :
    ((MouserSearchApp.search_parts o
        (MouserSearchApp.search_parts o s query user_id context).2
        query user_id context).1).original_query
        = ((MouserSearchApp.search_parts o s query user_id context).1).original_query
    ∧ ((MouserSearchApp.search_parts o
        (MouserSearchApp.search_parts o s query user_id context).2
        query user_id context).1).enhanced_query
        = ((MouserSearchApp.search_parts o s query user_id context).1).enhanced_query
    ∧ ((MouserSearchApp.search_parts o
        (MouserSearchApp.search_parts o s query user_id context).2
        query user_id context).1).results
        = ((MouserSearchApp.search_parts o s query user_id context).1).results
    ∧ ((MouserSearchApp.search_parts o
        (MouserSearchApp.search_parts o s query user_id context).2
        query user_id context).1).recommendations
        = ((MouserSearchApp.search_parts o s query user_id context).1).recommendations
    ∧ ((MouserSearchApp.search_parts o
        (MouserSearchApp.search_parts o s query user_id context).2
        query user_id context).1).total_found
        = ((MouserSearchApp.search_parts o s query user_id context).1).total_found
    ∧ ((MouserSearchApp.search_parts o
        (MouserSearchApp.search_parts o s query user_id context).2
        query user_id context).1).search_context
        = ((MouserSearchApp.search_parts o s query user_id context).1).search_context :=
  ⟨rfl, rfl, rfl, rfl, rfl, rfl⟩

/-- C4 failing run: two runs that differ only in an initial search by user
`"bob"` give `"alice"` different personalized recommendations on her second
search — `"bob"`'s `"capacitor"` query enters the single shared history, is
folded into `"alice"`'s derived profile, and surfaces as an extra
`"Popular in Capacitors..."` line.  Per-user isolation of history and profiles
does not hold. -/
theorem cross_user_history_leak :
    ("alice" : String) ≠ "bob"
    ∧ (((runList oracle₀ appInit
          [("resistor", "alice", ""), ("led", "alice", "")]).1.map
        (fun r => r.personalized_recommendations)).getLast?
        = some ["Popular in Resistors: Resistors - Resistors"])
    ∧ (((runList oracle₀ appInit
          [("capacitor", "bob", ""), ("resistor", "alice", ""), ("led", "alice", "")]).1.map
        (fun r => r.personalized_recommendations)).getLast?
        = some ["Popular in Capacitors: Capacitors - Capacitors",
                "Popular in Resistors: Resistors - Resistors"])
    ∧ (((runList oracle₀ appInit
          [("resistor", "alice", ""), ("led", "alice", "")]).1.map
        (fun r => r.personalized_recommendations)).getLast?
        ≠ ((runList oracle₀ appInit
          [("capacitor", "bob", ""), ("resistor", "alice", ""), ("led", "alice", "")]).1.map
        (fun r => r.personalized_recommendations)).getLast?) :=
  ⟨by decide, by decide, by decide, by decide⟩


theorem recRecordsFrom_append (c : Nat) (xs ys : List String) :
    recRecordsFrom c (xs ++ ys)
      = recRecordsFrom c xs ++ recRecordsFrom (c + xs.length) ys := by
  induction xs generalizing c with
  | nil => simp [recRecordsFrom]
  | cons x xs ih =>
    show (⟨x, "", c⟩ : SearchRecord) :: recRecordsFrom (c + 1) (xs ++ ys)
        = (⟨x, "", c⟩ : SearchRecord) ::
          (recRecordsFrom (c + 1) xs ++ recRecordsFrom (c + (xs.length + 1)) ys)
    rw [ih (c + 1), show c + 1 + xs.length = c + (xs.length + 1) by omega]

theorem recFold_state (o : Oracle) (line : String → ElectronicPart → String) :
    ∀ (items : List String) (recs : List String) (st : EngineState),
      ((recFold o line items recs st).2).history
          = st.history ++ recRecordsFrom st.clock items
      ∧ ((recFold o line items recs st).2).clock = st.clock + items.length := by
  intro items
  induction items with
  | nil => intro recs st; simp [recFold, recRecordsFrom]
  | cons item rest ih =>
    intro recs st
    have h := ih
      (recStep line item recs
        (IntelligentSearchEngine.search o st item "" 80).1.results)
      (IntelligentSearchEngine.search o st item "" 80).2
    have hS : (IntelligentSearchEngine.search o st item "" 80).2
        = (⟨st.history ++ [⟨item, "", st.clock⟩], st.clock + 1⟩ : EngineState) := rfl
    constructor
    · simp only [recFold]
      rw [h.1, hS]
      simp [recRecordsFrom, List.append_assoc]
    · simp only [recFold]
      rw [h.2, hS]
      show st.clock + 1 + rest.length = st.clock + (item :: rest).length
      simp only [List.length_cons]
      omega

/-- C7 counterexample: generating personalized recommendations for a user
whose profile lists the favorite category `"Resistors"` appends a
`SearchRecord` with query `"Resistors"` to the (shared) history — the history
is not identical before and after. -/
theorem personalized_recs_mutate_history :
    ((RecommendationEngine.get_personalized_recommendations oracle₀ profilesOne
        ⟨[], 0⟩ "u" "q").2).history = [⟨"Resistors", "", 0⟩]
    ∧ ((RecommendationEngine.get_personalized_recommendations oracle₀ profilesOne
        ⟨[], 0⟩ "u" "q").2).history ≠ ([] : List SearchRecord) :=
  ⟨by decide, by decide⟩

/-- C7 amended: generating personalized recommendations appends to the shared
history exactly one `SearchRecord` (query = the category or manufacturer
string, context `""`) for each of the profile's top-3 favorite categories and
top-2 preferred manufacturers, in that order; the engine state is unchanged
precisely when that list of recommendation queries is empty — when the user
has no stored profile, or a stored profile whose favorite-category and
preferred-manufacturer lists are both empty. -/
theorem personalized_recs_append_history (o : Oracle)
    (profiles : String → Option UserProfile) (st : EngineState)
    (user_id current_query : String) :
    ((RecommendationEngine.get_personalized_recommendations o profiles st user_id
        current_query).2).history
      = st.history ++ recRecordsFrom st.clock (recQueries (profiles user_id))
    ∧ ((RecommendationEngine.get_personalized_recommendations o profiles st
          user_id current_query).2 = st
        ↔ recQueries (profiles user_id) = []) := by
  have hmain :
      ((RecommendationEngine.get_personalized_recommendations o profiles st user_id
          current_query).2).history
        = st.history ++ recRecordsFrom st.clock (recQueries (profiles user_id))
      ∧ ((RecommendationEngine.get_personalized_recommendations o profiles st
          user_id current_query).2).clock
        = st.clock + (recQueries (profiles user_id)).length := by
    cases hp : profiles user_id with
    | none =>
      simp [RecommendationEngine.get_personalized_recommendations, hp, recQueries,
        recRecordsFrom]
    | some profile =>
      have h₁ := recFold_state o popularLine (profile.favorite_categories.take 3)
        [] st
      have h₂ := recFold_state o fromLine (profile.preferred_manufacturers.take 2)
        ((recFold o popularLine (profile.favorite_categories.take 3) [] st).1)
        ((recFold o popularLine (profile.favorite_categories.take 3) [] st).2)
      constructor
      · calc ((RecommendationEngine.get_personalized_recommendations o profiles st
                user_id current_query).2).history
            = ((recFold o fromLine (profile.preferred_manufacturers.take 2)
                ((recFold o popularLine (profile.favorite_categories.take 3) [] st).1)
                ((recFold o popularLine (profile.favorite_categories.take 3) [] st).2)).2).history := by
              simp [RecommendationEngine.get_personalized_recommendations, hp]
          _ = ((recFold o popularLine (profile.favorite_categories.take 3) [] st).2).history
                ++ recRecordsFrom
                  ((recFold o popularLine (profile.favorite_categories.take 3) [] st).2).clock
                  (profile.preferred_manufacturers.take 2) := h₂.1
          _ = (st.history ++ recRecordsFrom st.clock
                  (profile.favorite_categories.take 3))
                ++ recRecordsFrom
                  (st.clock + (profile.favorite_categories.take 3).length)
                  (profile.preferred_manufacturers.take 2) := by
              rw [h₁.1, h₁.2]
          _ = st.history ++ recRecordsFrom st.clock (recQueries (some profile)) := by
              rw [List.append_assoc, ← recRecordsFrom_append]
              rfl
      · calc ((RecommendationEngine.get_personalized_recommendations o profiles st
                user_id current_query).2).clock
            = ((recFold o fromLine (profile.preferred_manufacturers.take 2)
                ((recFold o popularLine (profile.favorite_categories.take 3) [] st).1)
                ((recFold o popularLine (profile.favorite_categories.take 3) [] st).2)).2).clock := by
              simp [RecommendationEngine.get_personalized_recommendations, hp]
          _ = ((recFold o popularLine (profile.favorite_categories.take 3) [] st).2).clock
                + (profile.preferred_manufacturers.take 2).length := h₂.2
          _ = (st.clock + (profile.favorite_categories.take 3).length)
                + (profile.preferred_manufacturers.take 2).length := by
              rw [h₁.2]
          _ = st.clock + (recQueries (some profile)).length := by
              simp only [recQueries, List.length_append]
              omega
  refine ⟨hmain.1, ?_, ?_⟩
  · intro hst
    have hc := congrArg EngineState.clock hst
    rw [hmain.2] at hc
    have hlen : (recQueries (profiles user_id)).length = 0 := by omega
    exact List.eq_nil_of_length_eq_zero hlen
  · intro hq
    have h1 := hmain.1
    have h2 := hmain.2
    rw [hq] at h1 h2
    simp only [recRecordsFrom, List.append_nil, List.length_nil,
      Nat.add_zero] at h1 h2
    have : (⟨((RecommendationEngine.get_personalized_recommendations o profiles st
          user_id current_query).2).history,
        ((RecommendationEngine.get_personalized_recommendations o profiles st
          user_id current_query).2).clock⟩ : EngineState)
        = ⟨st.history, st.clock⟩ := by rw [h1, h2]
    exact this

theorem personalized_recs_append_history_witness :
    (((RecommendationEngine.get_personalized_recommendations oracle₀ profilesOne
          ⟨[], 0⟩ "u" "q").2).history
        = [] ++ recRecordsFrom 0 (recQueries (profilesOne "u")))
    ∧ (RecommendationEngine.get_personalized_recommendations oracle₀ profilesOne
        ⟨[], 0⟩ "v" "q").2 = ⟨[], 0⟩
    ∧ (RecommendationEngine.get_personalized_recommendations oracle₀
        profilesEmptyLists ⟨[⟨"led", "", 0⟩], 1⟩ "w" "q").2
        = ⟨[⟨"led", "", 0⟩], 1⟩ :=
  ⟨(personalized_recs_append_history oracle₀ profilesOne ⟨[], 0⟩ "u" "q").1,
   ((personalized_recs_append_history oracle₀ profilesOne ⟨[], 0⟩ "v" "q").2).mpr
     rfl,
   ((personalized_recs_append_history oracle₀ profilesEmptyLists
       ⟨[⟨"led", "", 0⟩], 1⟩ "w" "q").2).mpr rfl⟩

theorem distinctKeys_nodup (l : List String) : (distinctKeys l).Nodup := by
  induction l with
  | nil => simp [distinctKeys]
  | cons x xs ih =>
    refine List.nodup_cons.mpr ⟨?_, ih.filter _⟩
    intro hmem
    have := List.of_mem_filter hmem
    simp at this

theorem mem_distinctKeys {l : List String} {a : String} :
    a ∈ distinctKeys l ↔ a ∈ l := by
  induction l with
  | nil => simp [distinctKeys]
  | cons x xs ih =>
    simp only [distinctKeys, List.mem_cons]
    constructor
    · rintro (rfl | h)
      · exact Or.inl rfl
      · exact Or.inr (ih.mp (List.mem_of_mem_filter h))
    · rintro (rfl | h)
      · exact Or.inl rfl
      · by_cases hax : a = x
        · exact Or.inl hax
        · exact Or.inr (List.mem_filter.mpr ⟨ih.mpr h, by simpa using hax⟩)

theorem setEnum_distinctKeys : SetEnumOK distinctKeys :=
  fun xs => ⟨distinctKeys_nodup xs, fun a => mem_distinctKeys⟩

theorem setEnum_revDistinct : SetEnumOK revDistinct :=
  fun xs =>
    ⟨List.nodup_reverse.mpr (distinctKeys_nodup xs),
     fun a => (List.mem_reverse).trans mem_distinctKeys⟩

/-- C8 counterexample: with a failing generator, non-empty ranked results
`[partBeta, partAlpha]` and a legitimate set-enumeration order (the reverse of
first-occurrence order — Python leaves set order unspecified), the fallback
lines name `Alpha`/`CA`, not the first-appearing manufacturer `Beta` and
category `CB` that the claim requires. -/
theorem fallback_first_manufacturer_false :
    SetEnumOK oracleBadSet.setList
    ∧ oracleBadSet.genRecs [partBeta, partAlpha] "q" = none
    ∧ GeminiAIAssistant.generate_recommendations oracleBadSet
        [partBeta, partAlpha] "q"
        = ["Consider other products from Alpha for similar quality",
           "Explore more CA for your project needs",
           "Check datasheets for detailed specifications and compatibility"]
    ∧ claimedFallback [partBeta, partAlpha]
        = ["Consider other products from Beta for similar quality",
           "Explore more CB for your project needs",
           "Check datasheets for detailed specifications and compatibility"]
    ∧ GeminiAIAssistant.generate_recommendations oracleBadSet
        [partBeta, partAlpha] "q"
        ≠ claimedFallback [partBeta, partAlpha] :=
  ⟨setEnum_revDistinct, rfl, by decide, by decide, by decide⟩

/-- C8 amended: whenever the generator fails or returns blank text and the
ranked results are non-empty, the recommendations are exactly the 3
deterministic templated lines — a manufacturer line, a category line, and the
static datasheet line — where the manufacturer and category are SOME
manufacturer and category occurring among the ranked results (picked by the
unspecified set-enumeration order, not necessarily the first-appearing
ones). -/
theorem fallback_recommendations_spec (o : Oracle)
    (results : List ElectronicPart) (query : String)
    (hset : SetEnumOK o.setList) (hne : results ≠ [])
    (hfail : o.genRecs results query = none ∨
      ∃ t, o.genRecs results query = some t ∧ strTrim t = "") :
    ∃ m c, m ∈ results.map (fun p => p.manufacturer)
      ∧ c ∈ results.map (fun p => p.category)
      ∧ GeminiAIAssistant.generate_recommendations o results query
        = ["Consider other products from " ++ m ++ " for similar quality",
           "Explore more " ++ c ++ " for your project needs",
           "Check datasheets for detailed specifications and compatibility"] := by
  obtain ⟨p, rest, rfl⟩ : ∃ p rest, results = p :: rest := by
    cases results with
    | nil => exact absurd rfl hne
    | cons p rest => exact ⟨p, rest, rfl⟩
  have hgen : GeminiAIAssistant.generate_recommendations o (p :: rest) query
      = GeminiAIAssistant.fallback_recommendations o (p :: rest) query := by
    rcases hfail with hf | ⟨t, ht, htrim⟩
    · simp [GeminiAIAssistant.generate_recommendations, hf]
    · simp [GeminiAIAssistant.generate_recommendations, ht, htrim]
  obtain ⟨m, ms, hm⟩ : ∃ m ms,
      o.setList ((p :: rest).map (fun q => q.manufacturer)) = m :: ms := by
    cases hsl : o.setList ((p :: rest).map (fun q => q.manufacturer)) with
    | nil =>
      have := ((hset (List.map (fun q => q.manufacturer) (p :: rest))).2
          p.manufacturer).mpr (by exact List.mem_cons_self _ _)
      rw [hsl] at this
      cases this
    | cons m ms => exact ⟨m, ms, rfl⟩
  obtain ⟨c, cs, hc⟩ : ∃ c cs,
      o.setList ((p :: rest).map (fun q => q.category)) = c :: cs := by
    cases hsl : o.setList ((p :: rest).map (fun q => q.category)) with
    | nil =>
      have := ((hset (List.map (fun q => q.category) (p :: rest))).2
          p.category).mpr (by exact List.mem_cons_self _ _)
      rw [hsl] at this
      cases this
    | cons c cs => exact ⟨c, cs, rfl⟩
  refine ⟨m, c, ?_, ?_, ?_⟩
  · exact ((hset _).2 m).mp (by rw [hm]; exact List.mem_cons_self _ _)
  · exact ((hset _).2 c).mp (by rw [hc]; exact List.mem_cons_self _ _)
  · rw [hgen]
    simp only [GeminiAIAssistant.fallback_recommendations]
    rw [hm, hc]
    simp

theorem fallback_recommendations_spec_witness :
    ∃ m c, m ∈ [partBeta, partAlpha].map (fun p => p.manufacturer)
      ∧ c ∈ [partBeta, partAlpha].map (fun p => p.category)
      ∧ GeminiAIAssistant.generate_recommendations oracleFailGen
          [partBeta, partAlpha] "q"
        = ["Consider other products from " ++ m ++ " for similar quality",
           "Explore more " ++ c ++ " for your project needs",
           "Check datasheets for detailed specifications and compatibility"] :=
  fallback_recommendations_spec oracleFailGen [partBeta, partAlpha] "q"
    setEnum_distinctKeys (by decide) (Or.inl rfl)

theorem categoryOf_eq_firstMatch (q : String) :
    categoryOf q = firstCategoryMatch q := by
  simp only [categoryOf, firstCategoryMatch, categoryVocab, List.find?]
  by_cases h1 : strIn "resistor" q <;>
  by_cases h2 : strIn "capacitor" q <;>
  by_cases h3 : strIn "transistor" q <;>
  by_cases h4 : strIn "ic" q <;>
  by_cases h5 : strIn "integrated circuit" q <;>
    simp [h1, h2, h3, h4, h5]

theorem filterMap_if_eq_filter_map {α β : Type} (p : α → Bool) (f : α → β)
    (l : List α) :
    l.filterMap (fun a => if p a then some (f a) else none) = (l.filter p).map f := by
  induction l with
  | nil => rfl
  | cons x xs ih =>
    by_cases hx : p x <;> simp [List.filterMap_cons, List.filter_cons, hx, ih]

/-- C9 counterexample: the query `"resistor capacitor"` contains two
vocabulary triggers, but the elif chain of `_extract_favorite_categories`
tallies only the first (`Resistors`), while the claim's per-trigger tally
would also record `Capacitors`. -/
theorem favorite_categories_not_per_trigger :
    RecommendationEngine.extract_favorite_categories [⟨"resistor capacitor", "", 0⟩]
        = ["Resistors"]
    ∧ extract_favorite_categories_claimed [⟨"resistor capacitor", "", 0⟩]
        = ["Resistors", "Capacitors"]
    ∧ RecommendationEngine.extract_favorite_categories
          [⟨"resistor capacitor", "", 0⟩]
        ≠ extract_favorite_categories_claimed [⟨"resistor capacitor", "", 0⟩] :=
  ⟨by decide, by decide, by decide⟩

/-- C9 amended: `favorite_categories` tallies AT MOST ONE label per recorded
query — the first vocabulary entry (in the fixed order resistor, capacitor,
transistor, ic/integrated circuit) whose trigger occurs case-insensitively in
the query — and keeps the 5 most frequent labels; `preferred_manufacturers`
tallies, per query, the title-cased form of EVERY vocabulary fragment
occurring in the lowercased query and keeps the 5 most frequent.  In both
cases `most_common` keeps results sorted by non-increasing tally with ties in
first-seen order (each equal-count bucket is an initial segment of the
first-occurrence key order). -/
theorem extraction_spec (history : List SearchRecord) :
    (RecommendationEngine.extract_favorite_categories history
        = extract_favorite_categories_amended history)
    ∧ (RecommendationEngine.extract_preferred_manufacturers history
        = extract_preferred_manufacturers_claimed history)
    ∧ ∀ (l : List String) (n : Nat),
        (most_common n l).Pairwise (fun a b => l.count b ≤ l.count a)
        ∧ (∀ a ∈ most_common n l, a ∈ l)
        ∧ ∀ k : Nat, ∃ m,
            (most_common n l).filter (fun a => l.count a = k)
              = ((distinctKeys l).filter (fun a => l.count a = k)).take m := by
  refine ⟨?_, ?_, ?_⟩
  · simp only [RecommendationEngine.extract_favorite_categories,
      extract_favorite_categories_amended]
    have hfun : (fun s : SearchRecord => categoryOf (strLower s.query))
        = fun s : SearchRecord => firstCategoryMatch (strLower s.query) :=
      funext fun s => categoryOf_eq_firstMatch _
    rw [hfun]
  · simp only [RecommendationEngine.extract_preferred_manufacturers,
      extract_preferred_manufacturers_claimed, filterMap_if_eq_filter_map]
  · intro l n
    refine ⟨?_, ?_, ?_⟩
    · exact (stableSortDesc_pairwise _ _).sublist (List.take_sublist _ _)
    · intro a ha
      exact mem_distinctKeys.mp
        (mem_stableSortDesc.mp (List.take_subset _ _ ha))
    · intro k
      obtain ⟨m, hm⟩ := take_filter_take
        (fun a => l.count a = k) (stableSortDesc (fun x => l.count x) (distinctKeys l)) n
      exact ⟨m, by rw [most_common, hm, stableSortDesc_filter]⟩
